import Mathlib

/-!
# Verification of `deepspeed/runtime/compiler.py`

A shallow embedding of the configuration-and-lazy-compilation shim in
`deepspeed/runtime/compiler.py`: the compile-config resolver
(`get_compile_config` / `CompileConfig` with its pydantic-v1 validators),
the dotted-path backend resolver (`get_backend_fn`) and the lazy-compiling
`CompiledModuleWrapper` (construction, attribute forwarding, `set_backend`,
`set_torch_compile_kwargs`, `set_compiler_fn`, `forward`).

Host-environment boundaries (whether `torch.compile` exists, the builtin
backend registry `torch._dynamo.list_backends()`, module import, the
`torch.compile` call itself, calling a module, calling a user compiler
function, attribute lookup on a wrapped module) are modelled as an opaque
`Env` record; the embedded functions are parametric in it, exactly where the
source delegates to the host.

Python dictionaries are modelled as association lists with first-match
lookup, in-place-overwrite `dictSet`, and Python `dict.update` semantics for
`dictUpdate`; mutation of a caller-supplied dict is modelled by returning the
dict as it stands after the call.
-/

set_option autoImplicit false

namespace DSCompiler

/-- An opaque module-like object (a `torch.nn.Module` or a compiled
replacement); identity only, behaviour is given by `Env`. -/
structure Module where
  id : Nat
  deriving DecidableEq, Repr

/-- Python values as far as this file needs them: strings, booleans,
integers, `None`, opaque callables (identified by a tag, interpreted by
`Env`), module objects and string-keyed dicts. -/
inductive PyVal where
  | none
  | bool (b : Bool)
  | int (n : Int)
  | str (s : String)
  | callable (tag : Nat)
  | pymodule (m : Module)
  | dict (entries : List (String × PyVal))

/-- Python `isinstance(v, str)`. -/
def PyVal.isStr : PyVal → Bool
  | .str _ => true
  | _ => false

/-- Python `callable(v)`: in this model only opaque callables are callable. -/
def PyVal.isCallable : PyVal → Bool
  | .callable _ => true
  | _ => false

/-- A Python `dict` with string keys, as an association list. -/
abbrev Dict := List (String × PyVal)

/-- `k in d` (first-match membership). -/
def dictContains (d : Dict) (k : String) : Bool :=
  d.any (fun p => p.1 = k)

/-- `d[k]` as an option (first match). -/
def dictGet (d : Dict) (k : String) : Option PyVal :=
  (d.find? (fun p => p.1 = k)).map Prod.snd

/-- `d[k]` with a default (used only under a `dictContains` guard, where the
default is unreachable). -/
def dictGetD (d : Dict) (k : String) (v : PyVal) : PyVal :=
  (dictGet d k).getD v

/-- `d[k] = v`: overwrite in place if the key is present, else append. -/
def dictSet (d : Dict) (k : String) (v : PyVal) : Dict :=
  if dictContains d k then d.map (fun p => if p.1 = k then (k, v) else p)
  else d ++ [(k, v)]

/-- `del d[k]`. -/
def dictDel (d : Dict) (k : String) : Dict :=
  d.filter (fun p => ¬ p.1 = k)

/-- Python `d1.update(d2)`: write each entry of `d2` into `d1` in order. -/
def dictUpdate (d1 d2 : Dict) : Dict :=
  d2.foldl (fun d p => dictSet d p.1 p.2) d1

/-- A well-formed Python dict has pairwise-distinct keys. -/
def dictWF (d : Dict) : Prop :=
  (d.map Prod.fst).Nodup

instance (d : Dict) : Decidable (dictWF d) := by
  unfold dictWF; infer_instance

/-- Python exceptions raised by the embedded code. -/
inductive PyErr where
  | valueError (msg : String)
  | attributeError (attr : String)
  | assertionError (msg : String)
  deriving DecidableEq, Repr

/-- An importable Python module: a bag of named attributes. -/
structure PyModule where
  attrs : String → Option PyVal

/-- Outcome of `importlib.import_module`: success, an `ImportError`
(which `get_backend_fn` catches), or some other exception (which it does
not catch, e.g. `ValueError` for an empty module name). -/
inductive ImportResult where
  | ok (m : PyModule)
  | importError
  | otherError (e : PyErr)

/-- The host environment: every boundary the source file delegates to. -/
structure Env where
  /-- `hasattr(torch, "compile")`. -/
  compileSupported : Bool
  /-- `torch._dynamo.list_backends()`. -/
  listBackends : List String
  /-- `importlib.import_module`. -/
  importModule : String → ImportResult
  /-- `torch.compile(module, backend=b, **kwargs)` as an opaque producer of
  a replacement module. -/
  torchCompile : Module → PyVal → Dict → Module
  /-- Calling a module-like object with positional and keyword arguments. -/
  callModule : Module → List PyVal → Dict → PyVal
  /-- Calling an opaque callable (a user compiler function) on a module. -/
  callCompilerFn : Nat → Module → Module
  /-- `getattr` on a wrapped module-like object. -/
  moduleAttr : Module → String → Option PyVal

/-- `is_compile_supported()`. -/
def is_compile_supported (env : Env) : Bool :=
  env.compileSupported

/-- Python `s.split('.')` on the underlying character list: always returns a
nonempty list of segments; `"".split('.') == ['']`, `"a.b".split('.') ==
['a', 'b']`. -/
def splitDots : List Char → List (List Char)
  | [] => [[]]
  | c :: rest =>
      match splitDots rest with
      | [] => [[]]
      | p :: ps => if c = '.' then [] :: p :: ps else (c :: p) :: ps

/-- `'.'.join(backend_name.split('.')[:-1])`: the module-path part of a
dotted backend path. -/
def moduleNameOf (backend_name : String) : String :=
  (List.intercalate ['.'] (splitDots backend_name.data).dropLast).asString

/-- `backend_name.split('.')[-1]`: the attribute-name part of a dotted path. -/
def fnNameOf (backend_name : String) : String :=
  ((splitDots backend_name.data).getLastD []).asString

/-- `get_backend_fn(backend_name)`: split the dotted path into a module path
and an attribute name, import the module — an `ImportError` becomes a
descriptive `ValueError`, any other import failure propagates — and return
the named attribute; a missing attribute raises `AttributeError` (uncaught
in the source, since only `ImportError` is caught). -/
def get_backend_fn (env : Env) (backend_name : String) : Except PyErr PyVal :=
  let module_name := moduleNameOf backend_name
  let fn_name := fnNameOf backend_name
  match env.importModule module_name with
  | .importError =>
      .error (.valueError
        ("Could not import module " ++ module_name ++ " for torch.compile backend."))
  | .otherError e => .error e
  | .ok m =>
      match m.attrs fn_name with
      | some v => .ok v
      | Option.none => .error (.attributeError fn_name)

/-- The validated `CompileConfig` pydantic model. `backend` is a `PyVal`
because `validate_backend` may replace a string with the callable returned by
`get_backend_fn`. -/
structure CompileConfig where
  enabled : Bool := false
  backend : PyVal := .str "inductor"
  kwargs : Dict := []

/-- `CompileConfig.validate_enabled`: reject `enabled=True` when the host
lacks `torch.compile`. -/
def validate_enabled (env : Env) (field_value : Bool) : Except PyErr Bool :=
  if field_value && !(is_compile_supported env) then
    .error (.valueError "torch.compile is not supported on this version of PyTorch.")
  else
    .ok field_value

/-- `CompileConfig.validate_backend`: on a compile-supporting host, a string
not among the builtin backends is resolved through `get_backend_fn`, and a
non-string non-callable is rejected; on a host without compile support the
value passes through unchanged. -/
def validate_backend (env : Env) (field_value : PyVal) : Except PyErr PyVal :=
  if is_compile_supported env then
    match field_value with
    | .str s =>
        if s ∈ env.listBackends then .ok (.str s)
        else get_backend_fn env s
    | v =>
        if v.isCallable then .ok v
        else .error (.valueError "backend for torch.compile must be a string or Callable")
  else
    .ok field_value

/-- The keyword arguments a caller passes to `CompileConfig(**d)`: each field
is either supplied or absent. -/
structure CompileConfigInput where
  enabled : Option Bool := Option.none
  backend : Option PyVal := Option.none
  kwargs : Option Dict := Option.none

/-- Construction of `CompileConfig(**input)`: pydantic-v1 validates fields in
declaration order, running each `@validator` (declared without `always=True`)
only on supplied values; absent fields take their declared defaults with the
validator skipped. -/
def mkCompileConfig (env : Env) (input : CompileConfigInput) : Except PyErr CompileConfig := do
  let enabled ← match input.enabled with
    | some v => validate_enabled env v
    | Option.none => pure false
  let backend ← match input.backend with
    | some v => validate_backend env v
    | Option.none => pure (.str "inductor")
  let kwargs := input.kwargs.getD []
  pure { enabled := enabled, backend := backend, kwargs := kwargs }

/-- The outer config mapping, as far as this file reads it: an association
list whose `"compile"` entry, when present, is the compile sub-config. -/
abbrev ParamDict := List (String × CompileConfigInput)

/-- `COMPILE_CONFIG = "compile"`. -/
def COMPILE_CONFIG : String := "compile"

/-- `param_dict[COMPILE_CONFIG]` when `COMPILE_CONFIG in param_dict`. -/
def compileEntry (param_dict : ParamDict) : Option CompileConfigInput :=
  (param_dict.find? (fun p => p.1 = COMPILE_CONFIG)).map Prod.snd

/-- `get_compile_config(param_dict)`: take the `"compile"` sub-mapping if
present, else an empty mapping, and build a `CompileConfig` from it. -/
def get_compile_config (env : Env) (param_dict : ParamDict) : Except PyErr CompileConfig :=
  match compileEntry param_dict with
  | some compile_config_dict => mkCompileConfig env compile_config_dict
  | Option.none => mkCompileConfig env {}

/-- The state of a `CompiledModuleWrapper` instance: the `wrapped` slot in
`__dict__`, the compiled flag, the backend, the compile kwargs and the
optional user compiler function (an opaque callable tag). -/
structure CompiledModuleWrapper where
  wrapped : Module
  is_compiled' : Bool
  backend' : PyVal
  compile_kwargs : Dict
  compiler_fn : Option Nat

namespace CompiledModuleWrapper

/-- `CompiledModuleWrapper.__init__(module, compile_config=None)`: asserts
host compile support, then reads `compile_config.backend` and
`compile_config.kwargs` — which raises `AttributeError` when
`compile_config` is `None` — and initialises the uncompiled state. -/
def init (env : Env) (module : Module) (compile_config : Option CompileConfig) :
    Except PyErr CompiledModuleWrapper :=
  if !(is_compile_supported env) then
    .error (.assertionError "torch.compile is not supported on this version of PyTorch.")
  else
    match compile_config with
    | Option.none => .error (.attributeError "backend")
    | some cfg =>
        .ok { wrapped := module
              is_compiled' := false
              backend' := cfg.backend
              compile_kwargs := cfg.kwargs
              compiler_fn := Option.none }

/-- `CompiledModuleWrapper.__getattr__(name)`: unconditional forwarding to
`self.__dict__['wrapped']` (Python only invokes it for names that normal
attribute lookup does not resolve). -/
def getattr (env : Env) (s : CompiledModuleWrapper) (name : String) : Option PyVal :=
  env.moduleAttr s.wrapped name

/-- The attribute names resolved by normal Python lookup on the wrapper
itself (instance `__dict__` entries and the class `@property` accessors)
rather than by `__getattr__` forwarding. -/
def ownAttrNames : List String :=
  ["wrapped", "_is_compiled", "_backend", "_compile_kwargs", "_compiler_fn",
   "is_compiled", "backend", "torch_compile_kwargs", "compiler_fn"]

/-- The value normal lookup yields for one of the wrapper's own attribute
names (the `@property` accessors return the corresponding private field). -/
def ownAttrValue (s : CompiledModuleWrapper) : String → PyVal
  | "wrapped" => .pymodule s.wrapped
  | "_is_compiled" => .bool s.is_compiled'
  | "_backend" => s.backend'
  | "_compile_kwargs" => .dict s.compile_kwargs
  | "_compiler_fn" => (s.compiler_fn.map PyVal.callable).getD .none
  | "is_compiled" => .bool s.is_compiled'
  | "backend" => s.backend'
  | "torch_compile_kwargs" => .dict s.compile_kwargs
  | "compiler_fn" => (s.compiler_fn.map PyVal.callable).getD .none
  | _ => .none

/-- `getattr(wrapper, name)` overall: the wrapper's own declared state is
resolved by normal lookup; every other name falls through to
`__getattr__`, which forwards to the currently wrapped object. -/
def lookupAttr (env : Env) (s : CompiledModuleWrapper) (name : String) : Option PyVal :=
  if name ∈ ownAttrNames then some (ownAttrValue s name)
  else getattr env s name

/-- The body shared by `set_backend` and `validate_backend`-style checks:
a string is resolved through `get_backend_fn`, a callable is kept, anything
else raises `ValueError`. -/
def resolve_backend (env : Env) (backend : PyVal) : Except PyErr PyVal :=
  match backend with
  | .str s => get_backend_fn env s
  | b =>
      if b.isCallable then .ok b
      else .error (.valueError "backend for torch.compile must be a string or Callable")

/-- `CompiledModuleWrapper.set_backend(backend)`: stores the resolved
backend in `self._backend`. -/
def set_backend (env : Env) (s : CompiledModuleWrapper) (backend : PyVal) :
    Except PyErr CompiledModuleWrapper :=
  (resolve_backend env backend).map fun b => { s with backend' := b }

/-- `CompiledModuleWrapper.set_torch_compile_kwargs(kwargs)`: when the
caller's dict has a `"backend"` entry it is routed through `set_backend` and
then deleted from the caller's dict (`del kwargs["backend"]` mutates the
argument in place); the remaining entries are merged into
`self._compile_kwargs` by `dict.update`. The second component of the result
is the caller's dict as it stands after the call. -/
def set_torch_compile_kwargs (env : Env) (s : CompiledModuleWrapper) (kwargs : Dict) :
    Except PyErr (CompiledModuleWrapper × Dict) :=
  if dictContains kwargs "backend" then
    match set_backend env s (dictGetD kwargs "backend" .none) with
    | .error e => .error e
    | .ok s1 =>
        let kwargs1 := dictDel kwargs "backend"
        .ok ({ s1 with compile_kwargs := dictUpdate s1.compile_kwargs kwargs1 }, kwargs1)
  else
    .ok ({ s with compile_kwargs := dictUpdate s.compile_kwargs kwargs }, kwargs)

/-- `CompiledModuleWrapper.set_compiler_fn(compiler_fn)`. -/
def set_compiler_fn (s : CompiledModuleWrapper) (fn : Nat) : CompiledModuleWrapper :=
  { s with compiler_fn := some fn }

/-- What one `forward` call produced: the returned value, the state after
the call, and how many times each compilation entry point was invoked
during the call. -/
structure ForwardResult where
  ret : PyVal
  state : CompiledModuleWrapper
  torchCompileCalls : Nat
  compilerFnCalls : Nat

/-- `CompiledModuleWrapper.forward(*args, **kwargs)`: on the first call
(only), replace `self.__dict__['wrapped']` with
`torch.compile(self.wrapped, backend=self._backend, **self._compile_kwargs)`
— or with `self._compiler_fn(self.wrapped)` when a compiler function is
installed — and set `self._is_compiled = True`; every call then invokes the
currently wrapped object with the caller's arguments and returns its result. -/
def forward (env : Env) (s : CompiledModuleWrapper) (args : List PyVal) (kwargs : Dict) :
    ForwardResult :=
  if s.is_compiled' then
    { ret := env.callModule s.wrapped args kwargs
      state := s
      torchCompileCalls := 0
      compilerFnCalls := 0 }
  else
    match s.compiler_fn with
    | Option.none =>
        let w := env.torchCompile s.wrapped s.backend' s.compile_kwargs
        { ret := env.callModule w args kwargs
          state := { s with wrapped := w, is_compiled' := true }
          torchCompileCalls := 1
          compilerFnCalls := 0 }
    | some fn =>
        let w := env.callCompilerFn fn s.wrapped
        { ret := env.callModule w args kwargs
          state := { s with wrapped := w, is_compiled' := true }
          torchCompileCalls := 0
          compilerFnCalls := 1 }

end CompiledModuleWrapper

/-- One invocation of the wrapper: positional and keyword arguments. -/
structure CallInput where
  args : List PyVal
  kwargs : Dict

/-- Run a sequence of `forward` calls, threading the wrapper state and
collecting each call's result. -/
def runTrace (env : Env) : CompiledModuleWrapper → List CallInput →
    List CompiledModuleWrapper.ForwardResult
  | _, [] => []
  | s, c :: cs =>
      let r := CompiledModuleWrapper.forward env s c.args c.kwargs
      r :: runTrace env r.state cs

/-- Total number of `torch.compile` invocations across a trace. -/
def traceTorchCompileCalls (rs : List CompiledModuleWrapper.ForwardResult) : Nat :=
  (rs.map (fun r => r.torchCompileCalls)).sum

/-- Total number of user-compiler-function invocations across a trace. -/
def traceCompilerFnCalls (rs : List CompiledModuleWrapper.ForwardResult) : Nat :=
  (rs.map (fun r => r.compilerFnCalls)).sum

/-- Total number of compilation calls of either kind across a trace. -/
def traceCompileCalls (rs : List CompiledModuleWrapper.ForwardResult) : Nat :=
  traceTorchCompileCalls rs + traceCompilerFnCalls rs

/-! ## Concrete test environment (used by witnesses) -/

/-- A sample importable module exposing one attribute `fn` (a callable) and
one non-callable attribute `data`. -/
def testPyModule : PyModule :=
  ⟨fun a => if a = "fn" then some (.callable 7)
            else if a = "data" then some (.int 5)
            else Option.none⟩

/-- A compile-supporting host on which exactly `"mypkg.backends"` is
importable and `"inductor"` is the one builtin backend. -/
def envTest : Env :=
  { compileSupported := true
    listBackends := ["inductor"]
    importModule := fun m => if m = "mypkg.backends" then .ok testPyModule else .importError
    torchCompile := fun m _ _ => ⟨m.id + 100⟩
    callModule := fun m args _ => .int (m.id + args.length)
    callCompilerFn := fun fn m => ⟨m.id + 1000 + fn⟩
    moduleAttr := fun m n => if n = "dim" then some (.int m.id) else Option.none }

/-- The same host without `torch.compile`. -/
def envNoCompile : Env :=
  { envTest with compileSupported := false }

/-! ## Dictionary lemmas -/

lemma dictGet_cons (a : String) (b : PyVal) (tl : Dict) (k : String) :
    dictGet ((a, b) :: tl) k = if a = k then some b else dictGet tl k := by
  by_cases h : a = k <;> simp [dictGet, List.find?_cons, h]

lemma dictContains_iff_mem (d : Dict) (k : String) :
    dictContains d k = true ↔ k ∈ d.map Prod.fst := by
  simp [dictContains, List.any_eq_true, List.mem_map]

lemma dictGet_eq_none_of_not_mem (d : Dict) (k : String)
    (h : k ∉ d.map Prod.fst) : dictGet d k = Option.none := by
  induction d with
  | nil => rfl
  | cons p tl ih =>
      obtain ⟨a, b⟩ := p
      simp only [List.map_cons, List.mem_cons, not_or] at h
      rw [dictGet_cons, if_neg (fun hak => h.1 hak.symm)]
      exact ih h.2

lemma dictGet_mapSet_ne (d : Dict) (k k' : String) (v : PyVal) (h : k' ≠ k) :
    dictGet (d.map (fun p => if p.1 = k then (k, v) else p)) k' = dictGet d k' := by
  induction d with
  | nil => rfl
  | cons p tl ih =>
      obtain ⟨a, b⟩ := p
      by_cases hak : a = k
      · subst hak
        have hk' : ¬ a = k' := fun hk => h hk.symm
        simp [dictGet_cons, hk', ih]
      · simp only [List.map_cons, if_neg hak, dictGet_cons, ih]

lemma dictGet_mapSet_self (d : Dict) (k : String) (v : PyVal)
    (h : dictContains d k = true) :
    dictGet (d.map (fun p => if p.1 = k then (k, v) else p)) k = some v := by
  induction d with
  | nil => simp [dictContains] at h
  | cons p tl ih =>
      obtain ⟨a, b⟩ := p
      by_cases hak : a = k
      · subst hak
        simp [dictGet_cons]
      · simp only [List.map_cons, if_neg hak, dictGet_cons, if_neg hak]
        apply ih
        simp only [dictContains, List.any_cons, Bool.or_eq_true, decide_eq_true_eq] at h ⊢
        exact h.resolve_left hak

lemma dictGet_append (d1 d2 : Dict) (k : String) :
    dictGet (d1 ++ d2) k =
      match dictGet d1 k with
      | some v => some v
      | Option.none => dictGet d2 k := by
  induction d1 with
  | nil => rfl
  | cons p tl ih =>
      obtain ⟨a, b⟩ := p
      by_cases hak : a = k
      · rw [List.cons_append, dictGet_cons, dictGet_cons, if_pos hak, if_pos hak]
      · rw [List.cons_append, dictGet_cons, dictGet_cons, if_neg hak, if_neg hak, ih]

lemma dictGet_set (d : Dict) (k k' : String) (v : PyVal) :
    dictGet (dictSet d k v) k' = if k' = k then some v else dictGet d k' := by
  unfold dictSet
  by_cases hc : dictContains d k
  · rw [if_pos hc]
    by_cases hk : k' = k
    · rw [if_pos hk, hk, dictGet_mapSet_self d k v hc]
    · rw [if_neg hk, dictGet_mapSet_ne d k k' v hk]
  · rw [if_neg hc, dictGet_append]
    have hnm : k ∉ d.map Prod.fst := fun hm =>
      hc ((dictContains_iff_mem d k).mpr hm)
    by_cases hk : k' = k
    · rw [if_pos hk, hk, dictGet_eq_none_of_not_mem d k hnm]
      rw [dictGet_cons, if_pos rfl]
    · rw [if_neg hk]
      have h2 : dictGet [(k, v)] k' = Option.none := by
        rw [dictGet_cons, if_neg (fun hkk => hk hkk.symm)]; rfl
      cases hg : dictGet d k' <;> simp [hg, h2]

lemma dictGet_update (d1 d2 : Dict) (k : String) (h : dictWF d2) :
    dictGet (dictUpdate d1 d2) k =
      match dictGet d2 k with
      | some v => some v
      | Option.none => dictGet d1 k := by
  induction d2 generalizing d1 with
  | nil => rfl
  | cons p tl ih =>
      obtain ⟨a, b⟩ := p
      simp only [dictWF, List.map_cons, List.nodup_cons] at h
      have step : dictUpdate d1 ((a, b) :: tl) = dictUpdate (dictSet d1 a b) tl := rfl
      rw [step, ih (dictSet d1 a b) h.2, dictGet_cons]
      by_cases hak : a = k
      · rw [if_pos hak]
        subst hak
        rw [dictGet_eq_none_of_not_mem tl a h.1]
        show dictGet (dictSet d1 a b) a = some b
        rw [dictGet_set, if_pos rfl]
      · rw [if_neg hak]
        cases hg : dictGet tl k
        · show dictGet (dictSet d1 a b) k = dictGet d1 k
          rw [dictGet_set, if_neg (fun hk => hak hk.symm)]
        · rfl

lemma dictDel_cons (a : String) (b : PyVal) (tl : Dict) (k : String) :
    dictDel ((a, b) :: tl) k =
      if a = k then dictDel tl k else (a, b) :: dictDel tl k := by
  simp only [dictDel, List.filter_cons]
  by_cases hak : a = k <;> simp [hak]

lemma dictGet_del_self (d : Dict) (k : String) :
    dictGet (dictDel d k) k = Option.none := by
  induction d with
  | nil => rfl
  | cons p tl ih =>
      obtain ⟨a, b⟩ := p
      rw [dictDel_cons]
      by_cases hak : a = k
      · rw [if_pos hak]; exact ih
      · rw [if_neg hak, dictGet_cons, if_neg hak]; exact ih

lemma dictGet_del_other (d : Dict) (k k' : String) (h : k' ≠ k) :
    dictGet (dictDel d k) k' = dictGet d k' := by
  induction d with
  | nil => rfl
  | cons p tl ih =>
      obtain ⟨a, b⟩ := p
      rw [dictDel_cons]
      by_cases hak : a = k
      · subst hak
        rw [if_pos rfl, dictGet_cons, if_neg (fun hk => h hk.symm)]
        exact ih
      · rw [if_neg hak, dictGet_cons, dictGet_cons, ih]

lemma dictContains_del_self (d : Dict) (k : String) :
    dictContains (dictDel d k) k = false := by
  cases hc : dictContains (dictDel d k) k
  · rfl
  · exfalso
    have h2 := (dictContains_iff_mem _ k).mp hc
    simp only [dictDel, List.mem_map, List.mem_filter] at h2
    obtain ⟨p, ⟨hpd, hp⟩, hk⟩ := h2
    simp at hp
    exact hp hk

lemma dictWF_del (d : Dict) (k : String) (h : dictWF d) : dictWF (dictDel d k) := by
  unfold dictWF dictDel at *
  exact h.sublist (List.Sublist.map Prod.fst (List.filter_sublist d))

/-! ## Lemmas about `forward` and call traces -/

namespace CompiledModuleWrapper

lemma forward_of_compiled (env : Env) (s : CompiledModuleWrapper)
    (args : List PyVal) (kwargs : Dict) (h : s.is_compiled' = true) :
    forward env s args kwargs =
      { ret := env.callModule s.wrapped args kwargs
        state := s
        torchCompileCalls := 0
        compilerFnCalls := 0 } := by
  unfold forward
  rw [if_pos h]

lemma forward_of_uncompiled_none (env : Env) (s : CompiledModuleWrapper)
    (args : List PyVal) (kwargs : Dict) (h : s.is_compiled' = false)
    (hf : s.compiler_fn = Option.none) :
    forward env s args kwargs =
      { ret := env.callModule (env.torchCompile s.wrapped s.backend' s.compile_kwargs) args kwargs
        state := { s with wrapped := env.torchCompile s.wrapped s.backend' s.compile_kwargs
                          is_compiled' := true }
        torchCompileCalls := 1
        compilerFnCalls := 0 } := by
  unfold forward
  rw [h, hf]
  rfl

lemma forward_of_uncompiled_fn (env : Env) (s : CompiledModuleWrapper)
    (args : List PyVal) (kwargs : Dict) (fn : Nat) (h : s.is_compiled' = false)
    (hf : s.compiler_fn = some fn) :
    forward env s args kwargs =
      { ret := env.callModule (env.callCompilerFn fn s.wrapped) args kwargs
        state := { s with wrapped := env.callCompilerFn fn s.wrapped
                          is_compiled' := true }
        torchCompileCalls := 0
        compilerFnCalls := 1 } := by
  unfold forward
  rw [h, hf]
  rfl

lemma forward_ret (env : Env) (s : CompiledModuleWrapper) (args : List PyVal) (kwargs : Dict) :
    (forward env s args kwargs).ret
      = env.callModule (forward env s args kwargs).state.wrapped args kwargs := by
  cases hcs : s.is_compiled'
  · cases hf : s.compiler_fn
    · rw [forward_of_uncompiled_none env s args kwargs hcs hf]
    · rw [forward_of_uncompiled_fn env s args kwargs _ hcs hf]
  · rw [forward_of_compiled env s args kwargs hcs]

lemma forward_state_is_compiled (env : Env) (s : CompiledModuleWrapper)
    (args : List PyVal) (kwargs : Dict) :
    (forward env s args kwargs).state.is_compiled' = true := by
  cases hcs : s.is_compiled'
  · cases hf : s.compiler_fn
    · rw [forward_of_uncompiled_none env s args kwargs hcs hf]
    · rw [forward_of_uncompiled_fn env s args kwargs _ hcs hf]
  · rw [forward_of_compiled env s args kwargs hcs]
    exact hcs

lemma forward_counts_of_uncompiled (env : Env) (s : CompiledModuleWrapper)
    (args : List PyVal) (kwargs : Dict) (h : s.is_compiled' = false) :
    (forward env s args kwargs).torchCompileCalls
      + (forward env s args kwargs).compilerFnCalls = 1 := by
  cases hf : s.compiler_fn
  · rw [forward_of_uncompiled_none env s args kwargs h hf]
    rfl
  · rw [forward_of_uncompiled_fn env s args kwargs _ h hf]
    rfl

end CompiledModuleWrapper

lemma runTrace_counts_of_compiled (env : Env) (s : CompiledModuleWrapper)
    (cs : List CallInput) (h : s.is_compiled' = true) :
    traceTorchCompileCalls (runTrace env s cs) = 0
    ∧ traceCompilerFnCalls (runTrace env s cs) = 0 := by
  induction cs generalizing s with
  | nil => exact ⟨rfl, rfl⟩
  | cons c tl ih =>
      rw [runTrace]
      rw [CompiledModuleWrapper.forward_of_compiled env s c.args c.kwargs h]
      have htl := ih s h
      constructor
      · simp [traceTorchCompileCalls] at htl ⊢
        exact htl.1
      · simp [traceCompilerFnCalls] at htl ⊢
        exact htl.2

lemma traceCompileCalls_of_uncompiled (env : Env) (s : CompiledModuleWrapper)
    (cs : List CallInput) (h : s.is_compiled' = false) (hne : cs ≠ []) :
    traceCompileCalls (runTrace env s cs) = 1 := by
  cases cs with
  | nil => exact absurd rfl hne
  | cons c tl =>
      rw [runTrace]
      have hcomp := CompiledModuleWrapper.forward_state_is_compiled env s c.args c.kwargs
      have htl := runTrace_counts_of_compiled env _ tl hcomp
      have hhead := CompiledModuleWrapper.forward_counts_of_uncompiled env s c.args c.kwargs h
      simp only [traceCompileCalls, traceTorchCompileCalls, traceCompilerFnCalls,
        List.map_cons, List.sum_cons] at htl ⊢
      omega

lemma traceTorchCompileCalls_of_compiler_fn (env : Env) (s : CompiledModuleWrapper)
    (cs : List CallInput) (fn : Nat) (h : s.is_compiled' = false)
    (hf : s.compiler_fn = some fn) :
    traceTorchCompileCalls (runTrace env s cs) = 0 := by
  cases cs with
  | nil => rfl
  | cons c tl =>
      rw [runTrace, CompiledModuleWrapper.forward_of_uncompiled_fn env s c.args c.kwargs fn h hf]
      have htl := (runTrace_counts_of_compiled env
        { s with wrapped := env.callCompilerFn fn s.wrapped, is_compiled' := true } tl rfl).1
      simp [traceTorchCompileCalls] at htl ⊢
      exact htl

/-! ## Witness fixtures -/

/-- A sample module to wrap. -/
def mTest : Module := ⟨1⟩

/-- A freshly constructed wrapper around `mTest` with the default config. -/
def wTest : CompiledModuleWrapper :=
  { wrapped := mTest
    is_compiled' := false
    backend' := .str "inductor"
    compile_kwargs := []
    compiler_fn := Option.none }

/-- A sample `forward` invocation (no arguments). -/
def cIn : CallInput := ⟨[], []⟩

/-- A sample kwargs dict carrying a `"backend"` entry and one plain option. -/
def kwTest : Dict := [("backend", .callable 3), ("foo", .int 1)]

/-! ## Claims -/

/-- C1: for every wrapped module and every sequence of N ≥ 1 `forward`
calls, exactly one compilation call is made over the whole sequence
(regardless of N); every invocation delegates to the currently wrapped
object with the caller's arguments and returns its result unchanged;
`is_compiled` is true after every call; and a compiled state is left
entirely unchanged by `forward` (the uncompiled → compiled transition is
one-way). -/
theorem C1_forward_compiles_exactly_once (env : Env) (s : CompiledModuleWrapper)
    (calls : List CallInput) (h : s.is_compiled' = false) (hne : calls ≠ []) :
    traceCompileCalls (runTrace env s calls) = 1
    ∧ (∀ (t : CompiledModuleWrapper) (args : List PyVal) (kwargs : Dict),
        (CompiledModuleWrapper.forward env t args kwargs).ret
          = env.callModule (CompiledModuleWrapper.forward env t args kwargs).state.wrapped
              args kwargs)
    ∧ (∀ (t : CompiledModuleWrapper) (args : List PyVal) (kwargs : Dict),
        (CompiledModuleWrapper.forward env t args kwargs).state.is_compiled' = true)
    ∧ (∀ (t : CompiledModuleWrapper) (args : List PyVal) (kwargs : Dict),
        t.is_compiled' = true →
          CompiledModuleWrapper.forward env t args kwargs =
            { ret := env.callModule t.wrapped args kwargs
              state := t
              torchCompileCalls := 0
              compilerFnCalls := 0 }) := by
  refine ⟨traceCompileCalls_of_uncompiled env s calls h hne,
    fun t args kwargs => CompiledModuleWrapper.forward_ret env t args kwargs,
    fun t args kwargs => CompiledModuleWrapper.forward_state_is_compiled env t args kwargs,
    fun t args kwargs ht => CompiledModuleWrapper.forward_of_compiled env t args kwargs ht⟩

/-- Witness for C1 at a concrete wrapper and one-call trace. -/
theorem C1_witness :
    wTest.is_compiled' = false ∧ ([cIn] : List CallInput) ≠ []
    ∧ traceCompileCalls (runTrace envTest wTest [cIn]) = 1 :=
  ⟨rfl, List.cons_ne_nil cIn [],
    (C1_forward_compiles_exactly_once envTest wTest [cIn] rfl (List.cons_ne_nil cIn [])).1⟩

/-- C2: on a wrapper with `set_compiler_fn(fn)` called before the first
invocation, the first `forward` invokes `fn` exactly once on the currently
wrapped object, stores its return value as the new wrapped object, never
invokes `torch.compile` (over the whole call sequence), and the result is
independent of the stored backend and options. -/
theorem C2_compiler_fn_supersedes (env : Env) (s : CompiledModuleWrapper) (fn : Nat)
    (args : List PyVal) (kwargs : Dict) (calls : List CallInput)
    (h : s.is_compiled' = false) :
    (CompiledModuleWrapper.forward env (s.set_compiler_fn fn) args kwargs).compilerFnCalls = 1
    ∧ (CompiledModuleWrapper.forward env (s.set_compiler_fn fn) args kwargs).torchCompileCalls = 0
    ∧ (CompiledModuleWrapper.forward env (s.set_compiler_fn fn) args kwargs).state.wrapped
        = env.callCompilerFn fn s.wrapped
    ∧ (CompiledModuleWrapper.forward env (s.set_compiler_fn fn) args kwargs).state.is_compiled'
        = true
    ∧ traceTorchCompileCalls (runTrace env (s.set_compiler_fn fn) calls) = 0
    ∧ (∀ (b : PyVal) (kw : Dict),
        (CompiledModuleWrapper.forward env
            { s.set_compiler_fn fn with backend' := b, compile_kwargs := kw }
            args kwargs).ret
          = (CompiledModuleWrapper.forward env (s.set_compiler_fn fn) args kwargs).ret
        ∧ (CompiledModuleWrapper.forward env
            { s.set_compiler_fn fn with backend' := b, compile_kwargs := kw }
            args kwargs).state.wrapped
          = (CompiledModuleWrapper.forward env (s.set_compiler_fn fn) args kwargs).state.wrapped) := by
  have hforward := CompiledModuleWrapper.forward_of_uncompiled_fn env
    (s.set_compiler_fn fn) args kwargs fn h rfl
  refine ⟨?_, ?_, ?_, ?_, ?_, ?_⟩
  · rw [hforward]
  · rw [hforward]
  · rw [hforward]
    rfl
  · rw [hforward]
  · exact traceTorchCompileCalls_of_compiler_fn env (s.set_compiler_fn fn) calls fn h rfl
  · intro b kw
    have hforward2 := CompiledModuleWrapper.forward_of_uncompiled_fn env
      { s.set_compiler_fn fn with backend' := b, compile_kwargs := kw } args kwargs fn h rfl
    rw [hforward2, hforward]
    exact ⟨rfl, rfl⟩

/-- Witness for C2 at a concrete wrapper and compiler function. -/
theorem C2_witness :
    wTest.is_compiled' = false
    ∧ (CompiledModuleWrapper.forward envTest (wTest.set_compiler_fn 7) [] []).compilerFnCalls = 1
    ∧ (CompiledModuleWrapper.forward envTest (wTest.set_compiler_fn 7) [] []).torchCompileCalls = 0 :=
  ⟨rfl, (C2_compiler_fn_supersedes envTest wTest 7 [] [] [] rfl).1,
    (C2_compiler_fn_supersedes envTest wTest 7 [] [] [] rfl).2.1⟩

/-- C3: when the options mapping passed to `set_torch_compile_kwargs`
contains a `"backend"` entry and that entry resolves, the resolved value is
stored separately as `_backend`, the entry is removed, and the stored
options equal the previous options merged with the remaining entries — in
particular any `"backend"` lookup in the stored options can only come from
the previous options, never from the passed mapping. -/
theorem C3_set_kwargs_extracts_backend (env : Env) (s : CompiledModuleWrapper)
    (kwargs : Dict) (b : PyVal) (hwf : dictWF kwargs)
    (hc : dictContains kwargs "backend" = true)
    (hres : CompiledModuleWrapper.resolve_backend env (dictGetD kwargs "backend" .none) = .ok b) :
    CompiledModuleWrapper.set_torch_compile_kwargs env s kwargs =
      .ok ({ s with
               backend' := b
               compile_kwargs := dictUpdate s.compile_kwargs (dictDel kwargs "backend") },
           dictDel kwargs "backend")
    ∧ dictContains (dictDel kwargs "backend") "backend" = false
    ∧ (∀ k : String,
        dictGet (dictUpdate s.compile_kwargs (dictDel kwargs "backend")) k =
          match dictGet (dictDel kwargs "backend") k with
          | some v => some v
          | Option.none => dictGet s.compile_kwargs k)
    ∧ dictGet (dictUpdate s.compile_kwargs (dictDel kwargs "backend")) "backend"
        = dictGet s.compile_kwargs "backend" := by
  have hwfdel := dictWF_del kwargs "backend" hwf
  have hmerge := fun k => dictGet_update s.compile_kwargs (dictDel kwargs "backend") k hwfdel
  refine ⟨?_, dictContains_del_self kwargs "backend", hmerge, ?_⟩
  · simp [CompiledModuleWrapper.set_torch_compile_kwargs, hc,
      CompiledModuleWrapper.set_backend, hres, Except.map]
  · rw [hmerge "backend", dictGet_del_self]

/-- Witness for C3 at a concrete kwargs dict carrying a callable backend. -/
theorem C3_witness :
    dictWF kwTest ∧ dictContains kwTest "backend" = true
    ∧ CompiledModuleWrapper.resolve_backend envTest (dictGetD kwTest "backend" .none) = .ok (.callable 3)
    ∧ CompiledModuleWrapper.set_torch_compile_kwargs envTest wTest kwTest =
        .ok ({ wTest with
                 backend' := .callable 3
                 compile_kwargs := dictUpdate wTest.compile_kwargs (dictDel kwTest "backend") },
             dictDel kwTest "backend") :=
  ⟨by decide, rfl, rfl,
    (C3_set_kwargs_extracts_backend envTest wTest kwTest (.callable 3)
      (by decide) rfl rfl).1⟩

/-- C4: for a dotted path whose module part imports and defines the named
attribute, `get_backend_fn` returns exactly that attribute (with no
callability check — the returned value is arbitrary); when the module part
fails to import with `ImportError`, it raises the dedicated descriptive
`ValueError` (distinct from the generic import error, which is caught). -/
theorem C4_backend_resolver (env : Env) (name : String) (m : PyModule) (v : PyVal) :
    (env.importModule (moduleNameOf name) = .ok m →
      m.attrs (fnNameOf name) = some v →
      get_backend_fn env name = .ok v)
    ∧ (env.importModule (moduleNameOf name) = .importError →
      get_backend_fn env name =
        .error (.valueError ("Could not import module " ++ moduleNameOf name
          ++ " for torch.compile backend."))) := by
  constructor
  · intro h1 h2
    simp [get_backend_fn, h1, h2]
  · intro h1
    simp [get_backend_fn, h1]

/-- Witness for C4: a resolvable callable attribute, a resolvable
non-callable attribute, and an unimportable module path. -/
theorem C4_witness :
    (envTest.importModule (moduleNameOf "mypkg.backends.fn") = .ok testPyModule
     ∧ get_backend_fn envTest "mypkg.backends.fn" = .ok (.callable 7))
    ∧ get_backend_fn envTest "mypkg.backends.data" = .ok (.int 5)
    ∧ (envTest.importModule (moduleNameOf "nope.fn") = .importError
     ∧ get_backend_fn envTest "nope.fn" =
         .error (.valueError "Could not import module nope for torch.compile backend.")) :=
  ⟨⟨rfl, (C4_backend_resolver envTest "mypkg.backends.fn" testPyModule (.callable 7)).1 rfl rfl⟩,
    (C4_backend_resolver envTest "mypkg.backends.data" testPyModule (.int 5)).1 rfl rfl,
    rfl, (C4_backend_resolver envTest "nope.fn" testPyModule (.callable 7)).2 rfl⟩

/-- C5: when the host lacks `torch.compile`, any configuration supplying
`enabled=true` is rejected at validation time with the dedicated
unsupported-feature `ValueError` — both directly at `CompileConfig`
construction and through `get_compile_config`. -/
theorem C5_enabled_unsupported_fails (env : Env) (input : CompileConfigInput)
    (pd : ParamDict) (hsup : env.compileSupported = false)
    (hen : input.enabled = some true) :
    mkCompileConfig env input =
      .error (.valueError "torch.compile is not supported on this version of PyTorch.")
    ∧ (compileEntry pd = some input →
        get_compile_config env pd =
          .error (.valueError "torch.compile is not supported on this version of PyTorch.")) := by
  have h1 : mkCompileConfig env input =
      .error (.valueError "torch.compile is not supported on this version of PyTorch.") := by
    simp only [mkCompileConfig, hen, validate_enabled, is_compile_supported, hsup,
      Bool.and_true, Bool.not_false, if_pos]
    rfl
  refine ⟨h1, fun hpd => ?_⟩
  unfold get_compile_config
  rw [hpd]
  exact h1

/-- Witness for C5 on a non-supporting host with `enabled=true`. -/
theorem C5_witness :
    envNoCompile.compileSupported = false
    ∧ ({ enabled := some true } : CompileConfigInput).enabled = some true
    ∧ get_compile_config envNoCompile [("compile", { enabled := some true })] =
        .error (.valueError "torch.compile is not supported on this version of PyTorch.") :=
  ⟨rfl, rfl,
    (C5_enabled_unsupported_fails envNoCompile { enabled := some true }
      [("compile", { enabled := some true })] rfl rfl).2 rfl⟩

/-- C6: a configuration mapping with no `"compile"` sub-key resolves to the
documented defaults: `enabled=false`, `backend="inductor"`, empty options. -/
theorem C6_missing_key_defaults (env : Env) (pd : ParamDict)
    (h : compileEntry pd = Option.none) :
    get_compile_config env pd =
      .ok { enabled := false, backend := .str "inductor", kwargs := [] } := by
  unfold get_compile_config
  rw [h]
  rfl

/-- Witness for C6 at the empty mapping and a mapping with only an
unrelated key. -/
theorem C6_witness :
    compileEntry [] = Option.none
    ∧ get_compile_config envTest [] =
        .ok { enabled := false, backend := .str "inductor", kwargs := [] }
    ∧ get_compile_config envTest [("zero_optimization", {})] =
        .ok { enabled := false, backend := .str "inductor", kwargs := [] } :=
  ⟨rfl, C6_missing_key_defaults envTest [] rfl,
    C6_missing_key_defaults envTest [("zero_optimization", {})] rfl⟩

/-- C7 counterexample: the claim says a backend value that is neither a
string nor a callable fails *both* at configuration-validation time and at
`set_backend` time, but on a host without `torch.compile` support
`validate_backend` is a pass-through: the non-string non-callable `3`
passes config validation unrejected. -/
theorem C7_counterexample :
    PyVal.isStr (.int 3) = false ∧ PyVal.isCallable (.int 3) = false
    ∧ validate_backend envNoCompile (.int 3) = .ok (.int 3)
    ∧ mkCompileConfig envNoCompile { backend := some (.int 3) } =
        .ok { enabled := false, backend := .int 3, kwargs := [] } :=
  ⟨rfl, rfl, rfl, rfl⟩

/-- C7 (amended): a backend value that is neither a string nor a callable
always fails with the invalid-backend-type `ValueError` at explicit
`set_backend` time, and at configuration-validation time when the host
supports compilation; on a non-supporting host the backend validator passes
the value through unchanged. For a string, `set_backend` resolves it via
the backend resolver; for a callable it stores it directly. -/
theorem C7_amended_backend_type_errors (env : Env) (s : CompiledModuleWrapper)
    (v : PyVal) (str : String) (c : Nat)
    (hv1 : v.isStr = false) (hv2 : v.isCallable = false) :
    CompiledModuleWrapper.set_backend env s v =
      .error (.valueError "backend for torch.compile must be a string or Callable")
    ∧ (is_compile_supported env = true →
        validate_backend env v =
          .error (.valueError "backend for torch.compile must be a string or Callable"))
    ∧ (is_compile_supported env = false → validate_backend env v = .ok v)
    ∧ CompiledModuleWrapper.set_backend env s (.str str) =
        (get_backend_fn env str).map (fun bv => { s with backend' := bv })
    ∧ CompiledModuleWrapper.set_backend env s (.callable c) =
        .ok { s with backend' := .callable c } := by
  have hres : CompiledModuleWrapper.resolve_backend env v =
      .error (.valueError "backend for torch.compile must be a string or Callable") := by
    cases v
    case str s0 => simp [PyVal.isStr] at hv1
    case callable t => simp [PyVal.isCallable] at hv2
    all_goals rfl
  refine ⟨?_, ?_, ?_, rfl, rfl⟩
  · unfold CompiledModuleWrapper.set_backend
    rw [hres]
    rfl
  · intro hs
    unfold validate_backend
    rw [hs]
    cases v
    case str s0 => simp [PyVal.isStr] at hv1
    case callable t => simp [PyVal.isCallable] at hv2
    all_goals rfl
  · intro hs
    unfold validate_backend
    rw [hs]
    rfl

/-- Witness for C7 (amended) at the non-string non-callable `None`. -/
theorem C7_witness :
    PyVal.isStr PyVal.none = false ∧ PyVal.isCallable PyVal.none = false
    ∧ CompiledModuleWrapper.set_backend envTest wTest PyVal.none =
        .error (.valueError "backend for torch.compile must be a string or Callable")
    ∧ validate_backend envTest PyVal.none =
        .error (.valueError "backend for torch.compile must be a string or Callable") :=
  ⟨rfl, rfl,
    (C7_amended_backend_type_errors envTest wTest PyVal.none "x" 0 rfl rfl).1,
    (C7_amended_backend_type_errors envTest wTest PyVal.none "x" 0 rfl rfl).2.1 rfl⟩

/-- C8: any attribute name outside the wrapper's own declared state is
forwarded to the currently wrapped object; after the first `forward` the
wrapped reference is the compiled replacement (from `torch.compile` or the
user compiler function) and forwarding targets it; a compiled state is
never changed again. -/
theorem C8_attr_forwarding (env : Env) (s : CompiledModuleWrapper) (name : String)
    (args : List PyVal) (kwargs : Dict)
    (hname : name ∉ CompiledModuleWrapper.ownAttrNames) (h : s.is_compiled' = false) :
    CompiledModuleWrapper.lookupAttr env s name = env.moduleAttr s.wrapped name
    ∧ (s.compiler_fn = Option.none →
        (CompiledModuleWrapper.forward env s args kwargs).state.wrapped
          = env.torchCompile s.wrapped s.backend' s.compile_kwargs
        ∧ CompiledModuleWrapper.lookupAttr env
            (CompiledModuleWrapper.forward env s args kwargs).state name
          = env.moduleAttr (env.torchCompile s.wrapped s.backend' s.compile_kwargs) name)
    ∧ (∀ fn : Nat, s.compiler_fn = some fn →
        (CompiledModuleWrapper.forward env s args kwargs).state.wrapped
          = env.callCompilerFn fn s.wrapped)
    ∧ (∀ t : CompiledModuleWrapper, t.is_compiled' = true →
        (CompiledModuleWrapper.forward env t args kwargs).state = t) := by
  have hlook : ∀ t : CompiledModuleWrapper,
      CompiledModuleWrapper.lookupAttr env t name = env.moduleAttr t.wrapped name := by
    intro t
    unfold CompiledModuleWrapper.lookupAttr
    rw [if_neg hname]
    rfl
  refine ⟨hlook s, ?_, ?_, ?_⟩
  · intro hf
    rw [CompiledModuleWrapper.forward_of_uncompiled_none env s args kwargs h hf]
    exact ⟨rfl, hlook _⟩
  · intro fn hf
    rw [CompiledModuleWrapper.forward_of_uncompiled_fn env s args kwargs fn h hf]
  · intro t ht
    rw [CompiledModuleWrapper.forward_of_compiled env t args kwargs ht]

/-- Witness for C8 at the attribute name `"dim"`. -/
theorem C8_witness :
    "dim" ∉ CompiledModuleWrapper.ownAttrNames ∧ wTest.is_compiled' = false
    ∧ CompiledModuleWrapper.lookupAttr envTest wTest "dim"
        = envTest.moduleAttr wTest.wrapped "dim" :=
  ⟨by decide, rfl,
    (C8_attr_forwarding envTest wTest "dim" [] [] (by decide) rfl).1⟩

/-- C9 (implicit frame effect): `set_torch_compile_kwargs` deletes the
`"backend"` key from the caller's own dict: whenever the passed mapping
contains `"backend"` and the call returns, the caller's mapping (the second
component of the result, modelling the argument after in-place mutation) is
exactly the original minus the `"backend"` entry. -/
theorem C9_caller_kwargs_mutated (env : Env) (s : CompiledModuleWrapper)
    (kwargs : Dict) (hc : dictContains kwargs "backend" = true) :
    ∀ (s' : CompiledModuleWrapper) (kw' : Dict),
      CompiledModuleWrapper.set_torch_compile_kwargs env s kwargs = .ok (s', kw') →
        kw' = dictDel kwargs "backend"
        ∧ dictContains kw' "backend" = false
        ∧ (∀ k : String, k ≠ "backend" → dictGet kw' k = dictGet kwargs k) := by
  intro s' kw' hok
  unfold CompiledModuleWrapper.set_torch_compile_kwargs at hok
  rw [hc] at hok
  cases hsb : CompiledModuleWrapper.set_backend env s (dictGetD kwargs "backend" .none) with
  | error e =>
      rw [hsb] at hok
      exact Except.noConfusion hok
  | ok s1 =>
      rw [hsb] at hok
      simp only [if_true, Except.ok.injEq, Prod.mk.injEq] at hok
      obtain ⟨hs', hkw'⟩ := hok
      subst hkw'
      exact ⟨rfl, dictContains_del_self kwargs "backend",
        fun k hk => dictGet_del_other kwargs "backend" k hk⟩

/-- Witness for C9 at a concrete kwargs dict: after the call the caller's
dict has lost `"backend"` and kept `"foo"`. -/
theorem C9_witness :
    dictContains kwTest "backend" = true
    ∧ dictContains (dictDel kwTest "backend") "backend" = false
    ∧ dictGet (dictDel kwTest "backend") "foo" = dictGet kwTest "foo" :=
  ⟨rfl,
    ((C9_caller_kwargs_mutated envTest wTest kwTest rfl)
      { wTest with backend' := .callable 3, compile_kwargs := [("foo", .int 1)] }
      [("foo", .int 1)] rfl).2.1,
    ((C9_caller_kwargs_mutated envTest wTest kwTest rfl)
      { wTest with backend' := .callable 3, compile_kwargs := [("foo", .int 1)] }
      [("foo", .int 1)] rfl).2.2 "foo" (by decide)⟩

/-- C10 (implicit): although `compile_config` defaults to `None`,
construction without a config always fails — on a compile-supporting host
with an `AttributeError` from reading `compile_config.backend` — so every
successful construction had a non-`None` config. -/
theorem C10_none_config_fails (env : Env) (module : Module) :
    (∀ w : CompiledModuleWrapper,
        CompiledModuleWrapper.init env module Option.none = .ok w → False)
    ∧ (env.compileSupported = true →
        CompiledModuleWrapper.init env module Option.none =
          .error (.attributeError "backend"))
    ∧ (∀ (cfg : Option CompileConfig) (w : CompiledModuleWrapper),
        CompiledModuleWrapper.init env module cfg = .ok w → cfg.isSome = true) := by
  have hnone : ∀ w : CompiledModuleWrapper,
      CompiledModuleWrapper.init env module Option.none = .ok w → False := by
    intro w hok
    unfold CompiledModuleWrapper.init at hok
    cases hsup : is_compile_supported env
    · rw [hsup] at hok
      exact Except.noConfusion hok
    · rw [hsup] at hok
      exact Except.noConfusion hok
  refine ⟨hnone, ?_, ?_⟩
  · intro hs
    unfold CompiledModuleWrapper.init is_compile_supported
    rw [hs]
    rfl
  · intro cfg w hok
    cases cfg
    · exact (hnone w hok).elim
    · rfl

/-- Witness for C10 on a compile-supporting host. -/
theorem C10_witness :
    envTest.compileSupported = true
    ∧ CompiledModuleWrapper.init envTest mTest Option.none =
        .error (.attributeError "backend")
    ∧ (some ({} : CompileConfig)).isSome = true :=
  ⟨rfl, (C10_none_config_fails envTest mTest).2.1 rfl,
    (C10_none_config_fails envTest mTest).2.2 (some {}) wTest rfl⟩

end DSCompiler
